import Mathlib

/-
Verification of the document-processing and search layer of the
obsidian-smart-composer plugin, together with a model of the indexing
engine described in the design document.

Conventions of the embedding:
* asynchronous functions that can throw are embedded as `Except String`
  values, the error carrying the exception message;
* external library calls (pdfjs, tesseract.js, mammoth, xlsx, fuzzysort,
  the Obsidian API) are passed in as function parameters, since their code
  is not part of the repository;
* mutable static fields are embedded as explicit state passed in and out.
-/

/-! ### String helpers

JavaScript string operations used by the sources, written with structural
recursion so that concrete instances reduce inside the kernel.
`jsTrim` is `String.prototype.trim`; `jsWordCount` is
`content.split(/\s+/).filter((w) => w.length > 0).length`. -/

/-- Characters of a string with leading and trailing whitespace removed. -/
def trimChars (l : List Char) : List Char :=
  ((l.dropWhile Char.isWhitespace).reverse.dropWhile Char.isWhitespace).reverse

/-- JavaScript `s.trim()`. -/
def jsTrim (s : String) : String := ⟨trimChars s.data⟩

/-- Maximal runs of non-whitespace characters, accumulator-style. -/
def wordTokens : List Char → List Char → List (List Char)
  | [], acc => if acc.isEmpty then [] else [acc.reverse]
  | c :: rest, acc =>
    if c.isWhitespace then
      if acc.isEmpty then wordTokens rest [] else acc.reverse :: wordTokens rest []
    else wordTokens rest (c :: acc)

/-- JavaScript `s.split(/\s+/).filter((w) => w.length > 0).length`, the word
count computed by the document processors. -/
def jsWordCount (s : String) : Nat := (wordTokens s.data []).length

/-- JavaScript `s.toLowerCase()` restricted to the ASCII range used by file
extensions. -/
def jsToLower (s : String) : String := ⟨s.data.map Char.toLower⟩

/-! ### src/utils/pdf-processor.ts — class `PDFProcessor` (imported as
`PDFLib` by document-processing.ts)

The pdfjs document handle delivered by `loadPdfJs`/`getDocument` is
embedded as `PDFDocument`: `numPages` plus, for each 1-based page number,
the page text already joined from `getTextContent().items` with spaces.
The dynamic import of tesseract.js is a parameter of type
`Except String Nat` (`Nat` standing for the identity of the loaded
module), and the per-page render-and-recognize pipeline of `performOCR`
is a parameter `recognize : Nat → Except String String`. -/

/-- A loaded pdfjs document: page count and per-page extracted text. -/
structure PDFDocument where
  numPages : Nat
  pageText : Nat → String

/-- Outcome of `PDFLib.initializeTesseract`: the returned promise, the new
value of the static `tesseractModule` field, and whether the dynamic
`import('tesseract.js')` was actually executed on this call. -/
structure InitOutcome where
  result : Except String Unit
  cache : Option Nat
  attemptedLoad : Bool
deriving Repr

namespace PDFLib

/-- Threshold for considering a PDF as text-light (characters per page),
the static field `TEXT_THRESHOLD_PER_PAGE`. -/
def TEXT_THRESHOLD_PER_PAGE : Nat := 2000

/-- Lazy loading of tesseract.js (`initializeTesseract`).  The static
field `tesseractModule` enters as `cache`; `importTesseract` is the
dynamic import.  On a cache hit the method returns at once; otherwise the
dynamic load runs, and only a successful one is assigned to the field — the
catch block rethrows without touching it. -/
def initializeTesseract (importTesseract : Except String Nat)
    (cache : Option Nat) : InitOutcome :=
  match cache with
  | some m => ⟨Except.ok (), some m, false⟩
  | none =>
    match importTesseract with
    | Except.ok m => ⟨Except.ok (), some m, true⟩
    | Except.error e =>
      ⟨Except.error ("Failed to load Tesseract module: " ++ e), none, true⟩

/-- Contribution of one page inside the `performOCR` loop: on success the
trimmed recognized text is pushed when it is non-empty, and any failure
of the per-page pipeline is caught, logged and replaced by the
placeholder entry. -/
def ocrPageEntry (recognize : Nat → Except String String) (pageNum : Nat) :
    List String :=
  match recognize pageNum with
  | Except.ok t =>
    if jsTrim t ≠ "" then
      ["--- Page " ++ toString pageNum ++ " ---\n" ++ jsTrim t]
    else []
  | Except.error _ =>
    ["--- Page " ++ toString pageNum ++ " ---\n[OCR failed for this page]"]

/-- Entries accumulated by the `performOCR` page loop over pages
`1 .. numPages`. -/
def ocrEntries (recognize : Nat → Except String String) (numPages : Nat) :
    List String :=
  (List.range' 1 numPages).flatMap (ocrPageEntry recognize)

/-- Method `performOCR`: initialize Tesseract (a failure there propagates
to the caller), then run the per-page loop and join the collected entries
with blank lines.  Returns the OCR text together with the new value of
the `tesseractModule` field. -/
def performOCR (importTesseract : Except String Nat) (cache : Option Nat)
    (recognize : Nat → Except String String) (numPages : Nat) :
    Except String (String × Option Nat) :=
  let init := initializeTesseract importTesseract cache
  match init.result with
  | Except.error e => Except.error e
  | Except.ok () =>
    Except.ok (String.intercalate "\n\n" (ocrEntries recognize numPages), init.cache)

/-- Options of `PDFLib.extractText` (the progress callback does not
influence the result and is omitted). -/
structure ExtractOptions where
  enableOCR : Bool := true
  ocrLanguage : String := "eng"
deriving Repr, DecidableEq

/-- Direct text extraction loop of `extractText`: page texts joined with a
newline after each page. -/
def directText (pdf : PDFDocument) : String :=
  String.join ((List.range' 1 pdf.numPages).map (fun i => pdf.pageText i ++ "\n"))

/-- Condition `enableOCR && text.trim().length / pdf.numPages < 2000` of
`extractText`.  The JavaScript division is on floats: for a positive page
count the comparison is exactly `trimmed length < 2000 * numPages`, and
for zero pages the quotient is `Infinity` or `NaN`, for which the
comparison is false — hence the page-count guard. -/
def needsOCR (opts : ExtractOptions) (pdf : PDFDocument) : Bool :=
  opts.enableOCR && decide (0 < pdf.numPages) &&
    decide ((jsTrim (directText pdf)).length < TEXT_THRESHOLD_PER_PAGE * pdf.numPages)

/-- Method `extractText`: load the document, extract the direct text,
apply OCR when the text is below the threshold, and return the content
with the page count.  Every failure is rewrapped by the catch block. -/
def extractText (loadDoc : Except String PDFDocument)
    (importTesseract : Except String Nat) (cache : Option Nat)
    (recognize : Nat → Except String String) (opts : ExtractOptions) :
    Except String (String × Nat) :=
  match loadDoc with
  | Except.error e => Except.error ("Failed to extract text from PDF: " ++ e)
  | Except.ok pdf =>
    let text := directText pdf
    if needsOCR opts pdf then
      match performOCR importTesseract cache recognize pdf.numPages with
      | Except.error e => Except.error ("Failed to extract text from PDF: " ++ e)
      | Except.ok (ocrText, _) =>
        let combined := if jsTrim text ≠ "" then text ++ "\n\n" ++ ocrText else ocrText
        Except.ok (combined, pdf.numPages)
    else
      Except.ok (text, pdf.numPages)

end PDFLib

/-! ### src/utils/docx-processor.ts — class `DOCXProcessor` (imported as
`DOCXLib`), and src/utils/xlsx-processor.ts — class `XLSXProcessor`
(imported as `XLSXLib`)

The mammoth and xlsx libraries are parameters: `mammothExtract` maps the
raw bytes to the raw text of `mammoth.extractRawText`, and `readWorkbook`
maps the raw bytes to the sheet list of `XLSX.read`, each sheet given as
its name paired with the CSV text of `XLSX.utils.sheet_to_csv`. -/

namespace DOCXLib

/-- Method `extractText`: run mammoth and rewrap any failure. -/
def extractText (mammothExtract : List Nat → Except String String)
    (bytes : List Nat) : Except String String :=
  match mammothExtract bytes with
  | Except.ok v => Except.ok v
  | Except.error e => Except.error ("Failed to extract text from DOCX: " ++ e)

end DOCXLib

namespace XLSXLib

/-- Sheet loop of `extractText`: a sheet whose CSV is blank is skipped,
the others are rendered with their header line. -/
def sheetEntries (sheets : List (String × String)) : List String :=
  sheets.filterMap (fun sheet =>
    if jsTrim sheet.2 ≠ "" then
      some ("--- Sheet: " ++ sheet.1 ++ " ---\n" ++ sheet.2)
    else none)

/-- Method `extractText`: read the workbook, render each non-blank sheet,
join with blank lines, and rewrap any failure. -/
def extractText (readWorkbook : List Nat → Except String (List (String × String)))
    (bytes : List Nat) : Except String String :=
  match readWorkbook bytes with
  | Except.ok sheets => Except.ok (String.intercalate "\n\n" (sheetEntries sheets))
  | Except.error e => Except.error ("Failed to extract text from XLSX: " ++ e)

end XLSXLib

/-! ### src/utils/document-processing.ts

`DocumentProcessingResult`, the four processor classes, the
`DocumentProcessorManager` and `createDocumentMentionable`.  A browser
`File` is embedded as `JSFile` (name, MIME type, raw bytes), and all
external collaborators plus the `Date.now()` clock are bundled in
`ProcessorEnv`.  The progress callbacks do not influence results and are
omitted. -/

/-- Field `metadata` of `DocumentProcessingResult`. -/
structure DocumentMetadata where
  pageCount : Option Nat := none
  wordCount : Option Nat := none
  sheetCount : Option Nat := none
  hasImages : Option Bool := none
  extractedAt : Nat
deriving Repr, DecidableEq

/-- Interface `DocumentProcessingResult`. -/
structure DocumentProcessingResult where
  success : Bool
  content : Option String := none
  error : Option String := none
  metadata : Option DocumentMetadata := none
deriving Repr, DecidableEq

/-- A browser `File` value as the upload handlers see it. -/
structure JSFile where
  name : String
  type : String
  bytes : List Nat
deriving Repr, DecidableEq

/-- External collaborators of the processors and the wall clock. -/
structure ProcessorEnv where
  mammothExtract : List Nat → Except String String
  readWorkbook : List Nat → Except String (List (String × String))
  readAsText : List Nat → Except String String
  loadPdf : List Nat → Except String PDFDocument
  importTesseract : Except String Nat
  tesseractCache : Option Nat
  recognize : Nat → Except String String
  now : Nat

/-- Field `ocrOptions` of the plugin settings, the part read by
`PDFProcessor.processFile`. -/
structure OcrOptions where
  enabled : Bool
  language : String
deriving Repr, DecidableEq

/-- The plugin settings, restricted to the fields the processors read. -/
structure SmartComposerSettings where
  ocrOptions : OcrOptions
deriving Repr, DecidableEq

namespace DOCXProcessor

/-- Method `getSupportedMimeTypes` of class `DOCXProcessor`. -/
def getSupportedMimeTypes : List String :=
  ["application/vnd.openxmlformats-officedocument.wordprocessingml.document",
   "application/msword"]

/-- Method `processFile` of class `DOCXProcessor`: extract the text, count
words, and catch any failure into a `success := false` result. -/
def processFile (env : ProcessorEnv) (file : JSFile) : DocumentProcessingResult :=
  match DOCXLib.extractText env.mammothExtract file.bytes with
  | Except.ok content =>
    { success := true
      content := some content
      metadata := some { wordCount := some (jsWordCount content), extractedAt := env.now } }
  | Except.error e => { success := false, error := some e }

end DOCXProcessor

namespace PDFProcessor

/-- Method `getSupportedMimeTypes` of class `PDFProcessor`. -/
def getSupportedMimeTypes : List String := ["application/pdf"]

/-- Method `processFile` of class `PDFProcessor`: delegate to
`PDFLib.extractText` with `enableOCR := settings?.ocrOptions.enabled ?? true`
and `ocrLanguage := settings?.ocrOptions.language ?? 'eng'`, then catch
any failure into a `success := false` result. -/
def processFile (env : ProcessorEnv) (file : JSFile)
    (settings : Option SmartComposerSettings) : DocumentProcessingResult :=
  let opts : PDFLib.ExtractOptions :=
    { enableOCR := (settings.map (fun s => s.ocrOptions.enabled)).getD true
      ocrLanguage := (settings.map (fun s => s.ocrOptions.language)).getD "eng" }
  match PDFLib.extractText (env.loadPdf file.bytes) env.importTesseract
      env.tesseractCache env.recognize opts with
  | Except.ok (content, pageCount) =>
    { success := true
      content := some content
      metadata := some { pageCount := some pageCount, extractedAt := env.now } }
  | Except.error e => { success := false, error := some e }

end PDFProcessor

namespace XLSXProcessor

/-- Method `getSupportedMimeTypes` of class `XLSXProcessor`. -/
def getSupportedMimeTypes : List String :=
  ["application/vnd.openxmlformats-officedocument.spreadsheetml.sheet",
   "application/vnd.ms-excel"]

/-- Method `processFile` of class `XLSXProcessor`. -/
def processFile (env : ProcessorEnv) (file : JSFile) : DocumentProcessingResult :=
  match XLSXLib.extractText env.readWorkbook file.bytes with
  | Except.ok content =>
    { success := true
      content := some content
      metadata := some { wordCount := some (jsWordCount content), extractedAt := env.now } }
  | Except.error e => { success := false, error := some e }

end XLSXProcessor

namespace TextProcessor

/-- Method `getSupportedMimeTypes` of class `TextProcessor`. -/
def getSupportedMimeTypes : List String :=
  ["text/plain", "text/markdown", "text/csv", "text/tab-separated-values"]

/-- Method `processFile` of class `TextProcessor`: read the file through
`FileReader.readAsText` and count words. -/
def processFile (env : ProcessorEnv) (file : JSFile) : DocumentProcessingResult :=
  match env.readAsText file.bytes with
  | Except.ok content =>
    { success := true
      content := some content
      metadata := some { wordCount := some (jsWordCount content), extractedAt := env.now } }
  | Except.error _ =>
    { success := false, error := some "Failed to read file" }

end TextProcessor

/-! ### Singleton `getInstance` methods

Each processor class keeps a private static `instance` field and a
`getInstance` method of the shape `if (!instance) instance = new C(); return instance`.
Instances are identified by the order of construction: `SingletonState`
carries the cached field and the identity the next construction would
produce.  Each class gets its own copy of the method, mirroring the
duplication in the source. -/

/-- Static state of one singleton class: the `instance` field and the
identity a `new` expression would allocate next. -/
structure SingletonState where
  cached : Option Nat
  nextId : Nat
deriving Repr, DecidableEq

namespace DOCXProcessor

/-- Method `getInstance` of class `DOCXProcessor`. -/
def getInstance (st : SingletonState) : Nat × SingletonState :=
  match st.cached with
  | some i => (i, st)
  | none => (st.nextId, ⟨some st.nextId, st.nextId + 1⟩)

end DOCXProcessor

namespace PDFProcessor

/-- Method `getInstance` of class `PDFProcessor`. -/
def getInstance (st : SingletonState) : Nat × SingletonState :=
  match st.cached with
  | some i => (i, st)
  | none => (st.nextId, ⟨some st.nextId, st.nextId + 1⟩)

end PDFProcessor

namespace XLSXProcessor

/-- Method `getInstance` of class `XLSXProcessor`. -/
def getInstance (st : SingletonState) : Nat × SingletonState :=
  match st.cached with
  | some i => (i, st)
  | none => (st.nextId, ⟨some st.nextId, st.nextId + 1⟩)

end XLSXProcessor

namespace TextProcessor

/-- Method `getInstance` of class `TextProcessor`. -/
def getInstance (st : SingletonState) : Nat × SingletonState :=
  match st.cached with
  | some i => (i, st)
  | none => (st.nextId, ⟨some st.nextId, st.nextId + 1⟩)

end TextProcessor

/-! ### `DocumentProcessorManager` and `createDocumentMentionable`

The manager registers the four singleton processors in the order PDF,
DOCX, XLSX, Text, and dispatches on the first processor whose supported
MIME types contain `file.type`.  `processDocument` calls `processFile`
without forwarding settings; `createDocumentMentionable` forwards them. -/

/-- The registered processors, identified by class, in registration
order. -/
inductive ProcessorKind
  | pdf
  | docx
  | xlsx
  | text
deriving Repr, DecidableEq

/-- Supported MIME types of each processor class. -/
def processorMimeTypes : ProcessorKind → List String
  | ProcessorKind.pdf => PDFProcessor.getSupportedMimeTypes
  | ProcessorKind.docx => DOCXProcessor.getSupportedMimeTypes
  | ProcessorKind.xlsx => XLSXProcessor.getSupportedMimeTypes
  | ProcessorKind.text => TextProcessor.getSupportedMimeTypes

/-- Dynamic dispatch of `processor.processFile(file, onProgress, settings)`:
only the PDF processor reads the settings argument. -/
def dispatchProcessFile (env : ProcessorEnv)
    (settings : Option SmartComposerSettings) :
    ProcessorKind → JSFile → DocumentProcessingResult
  | ProcessorKind.pdf, file => PDFProcessor.processFile env file settings
  | ProcessorKind.docx, file => DOCXProcessor.processFile env file
  | ProcessorKind.xlsx, file => XLSXProcessor.processFile env file
  | ProcessorKind.text, file => TextProcessor.processFile env file

namespace DocumentProcessorManager

/-- Field `processors` after the constructor ran: PDF, DOCX, XLSX, Text. -/
def processors : List ProcessorKind :=
  [ProcessorKind.pdf, ProcessorKind.docx, ProcessorKind.xlsx, ProcessorKind.text]

/-- Method `getProcessorForFile`: first registered processor whose
supported MIME type list contains the type of the file. -/
def getProcessorForFile (file : JSFile) : Option ProcessorKind :=
  processors.find? (fun p => (processorMimeTypes p).contains file.type)

/-- Method `getSupportedMimeTypes` of the manager. -/
def getSupportedMimeTypes : List String :=
  processors.flatMap processorMimeTypes

/-- Method `processDocument`: an unsupported type yields a
`success := false` result with the message
`File type <type> is not supported`, without throwing; otherwise the
matching processor runs (with no settings argument). -/
def processDocument (env : ProcessorEnv) (file : JSFile) :
    DocumentProcessingResult :=
  match getProcessorForFile file with
  | none =>
    { success := false, error := some ("File type " ++ file.type ++ " is not supported") }
  | some p => dispatchProcessFile env none p file

end DocumentProcessorManager

/-- A `MentionableDocument` as produced by document processing and by the
fuzzy-search conversion (field `type : 'document'` is implicit in the
Lean type; `sourceFile` holds the vault path when present). -/
structure MentionableDocument where
  name : String
  mimeType : String
  content : String
  originalFileName : String
  processingStatus : String
  sourceFile : Option String := none
deriving Repr, DecidableEq

/-- Function `createDocumentMentionable`: an unsupported type throws
`Unsupported file type: <type>`; a failed processing result throws its
error message (defaulting to `Document processing failed`); success
yields the completed mentionable. -/
def createDocumentMentionable (env : ProcessorEnv)
    (settings : Option SmartComposerSettings) (file : JSFile) :
    Except String MentionableDocument :=
  match DocumentProcessorManager.getProcessorForFile file with
  | none => Except.error ("Unsupported file type: " ++ file.type)
  | some p =>
    let result := dispatchProcessFile env settings p file
    if result.success then
      Except.ok
        { name := file.name
          mimeType := file.type
          content := result.content.getD ""
          originalFileName := file.name
          processingStatus := "completed" }
    else
      Except.error (result.error.getD "Document processing failed")

/-! ### ChatUserInput (src/components/chat-view/chat-input) — the document
upload path

`handleUploadDocuments` processes each uploaded `File` through
`createDocumentMentionable`, catching a per-file failure into a `Notice`
and a `null` entry; the non-null results are handed to
`handleCreateDocumentMentionables`, which appends those not already
present (by mentionable key) and focuses the last one.  The key function
`getMentionableKey ∘ serializeMentionable` lives outside this repository
slice and is a parameter.  The component state visible to these handlers
is the mentionable list, the notices shown so far, and the displayed
key. -/

/-- Component state touched by the upload handlers. -/
structure ChatState where
  mentionables : List MentionableDocument
  notices : List String
  displayedKey : Option String
deriving Repr, DecidableEq

/-- Callback `handleCreateDocumentMentionables`: drop the documents whose
key equals the key of an existing mentionable, then append the rest and
display the last of them; with nothing new, the state is untouched. -/
def handleCreateDocumentMentionables (key : MentionableDocument → String)
    (docs : List MentionableDocument) (st : ChatState) : ChatState :=
  let newDocs := docs.filter
    (fun m => !(st.mentionables.any (fun ex => key ex == key m)))
  if newDocs.isEmpty then st
  else
    { st with
      mentionables := st.mentionables ++ newDocs
      displayedKey := newDocs.getLast?.map key }

/-- Results of mapping `createDocumentMentionable` over the uploaded
files inside `handleUploadDocuments`, keeping only the successes (the
`results.filter((doc) => doc !== null)` value). -/
def uploadSuccesses (env : ProcessorEnv) (docs : List JSFile) :
    List MentionableDocument :=
  docs.filterMap (fun d => (createDocumentMentionable env none d).toOption)

/-- Notices produced by the per-file catch blocks of
`handleUploadDocuments`, in file order. -/
def uploadFailureNotices (env : ProcessorEnv) (docs : List JSFile) :
    List String :=
  docs.filterMap (fun d =>
    match createDocumentMentionable env none d with
    | Except.error e => some ("Failed to process " ++ d.name ++ ": " ++ e)
    | Except.ok _ => none)

/-- Handler `handleUploadDocuments`: process every file (a failure is
caught per file, noticed, and replaced by `null`), hand the successes to
`handleCreateDocumentMentionables` when there are any, and post a count
notice when some file failed. -/
def handleUploadDocuments (env : ProcessorEnv)
    (key : MentionableDocument → String) (docs : List JSFile)
    (st : ChatState) : ChatState :=
  let successes := uploadSuccesses env docs
  let st1 := { st with notices := st.notices ++ uploadFailureNotices env docs }
  let st2 :=
    if successes.isEmpty then st1
    else handleCreateDocumentMentionables key successes st1
  if successes.length < docs.length then
    { st2 with
      notices := st2.notices ++
        [toString (docs.length - successes.length) ++ " document(s) failed to process"] }
  else st2

/-! ### src/utils/fuzzy-search.ts

The Obsidian vault inputs (`app.vault.getFiles()`, folders, the active
file, the open files, `Date.now()`) and the helpers from utils/obsidian
(`calculateFileDistance`, `getOpenFiles`) are collected in `ObsidianApp`.
JavaScript numbers are embedded as rationals, and `Math.log` — used only
inside the boost normalization — is an abstract parameter `log`, so every
statement below holds for any model of the floating-point logarithm.  The
fuzzysort library is likewise a parameter `go`, receiving the options
record built at the call site. -/

/-- A vault file (`TFile`): path, name, extension and `stat.mtime`. -/
structure VFile where
  path : String
  name : String
  extension : String
  mtime : ℚ
deriving Repr, DecidableEq

/-- A vault folder (`TFolder`). -/
structure VFolder where
  path : String
  name : String
deriving Repr, DecidableEq

/-- The slice of the Obsidian `App` read by `fuzzySearch`. -/
structure ObsidianApp where
  files : List VFile
  folders : List VFolder
  currentFile : Option VFile
  openFiles : List VFile
  now : ℚ
  fileDistance : VFile → VFile → Option ℚ
  folderDistance : VFile → VFolder → Option ℚ

/-- The union type `SearchItem` with the metadata each variant carries. -/
inductive SearchItem
  | file (path name : String) (file : VFile) (opened : Bool)
      (distance : Option ℚ) (daysSinceLastModified : ℚ)
  | folder (path name : String) (folder : VFolder) (distance : Option ℚ)
  | vault (path : String)
  | document (path name : String) (file : VFile)
      (distance : Option ℚ) (daysSinceLastModified : ℚ)

/-- Boost factor accumulated by the `switch` of `scoreFnWithBoost`
(sequence of `Math.max` updates starting from 1). -/
def itemBoost (item : SearchItem) (score : ℚ) : ℚ :=
  match item with
  | SearchItem.file _ _ _ opened distance days =>
    let b : ℚ := 1
    let b := if opened then max b 3 else b
    let b := if days < 30 then max b (1 + 2 / (days + 2)) else b
    match distance with
    | some d => if 0 < d ∧ d ≤ 5 then max b (1 + (1/2) / max (d - 1) 1) else b
    | none => b
  | SearchItem.folder _ _ _ distance =>
    let b : ℚ := 1
    match distance with
    | some d => if 0 < d ∧ d ≤ 5 then max b (1 + (1/2) / max (d - 1) 1) else b
    | none => b
  | SearchItem.document _ _ _ distance days =>
    let b : ℚ := 1
    let b := if days < 30 then max b (1 + 2 / (days + 2)) else b
    match distance with
    | some d => if 0 < d ∧ d ≤ 5 then max b (1 + (1/2) / max (d - 1) 1) else b
    | none => b
  | SearchItem.vault _ => if score = 1 then 3 else 1

/-- Function `scoreFnWithBoost`: the larger of the path and name scores,
boosted and normalized through `Math.log` when the boost exceeds 1. -/
def scoreFnWithBoost (log : ℚ → ℚ) (item : SearchItem)
    (pathScore nameScore : ℚ) : ℚ :=
  let score := max pathScore nameScore
  let boost := itemBoost item score
  if 1 < boost then log (boost * score + 1) / log (boost + 1) else score

/-- Score used to order items for an empty query: `scoreFnWithBoost` at
the base path and name scores of 0.5. -/
def emptyQueryScore (log : ℚ → ℚ) (item : SearchItem) : ℚ :=
  scoreFnWithBoost log item (1/2) (1/2)

/-- Comparator of `getEmptyQueryResult` as a sorting relation: the
JavaScript `sort((a, b) => scoreB - scoreA)` orders by descending score,
keeping the original order of equal-score items. -/
def descByEmptyScore (log : ℚ → ℚ) (a b : SearchItem) : Bool :=
  decide (emptyQueryScore log b ≤ emptyQueryScore log a)

/-- Serialized mentionables returned by the search. -/
inductive SearchableMentionable
  | file (file : VFile)
  | folder (folder : VFolder)
  | vault
  | document (doc : MentionableDocument)

/-- Function `getMimeTypeForFile`. -/
def getMimeTypeForFile (file : VFile) : String :=
  match jsToLower file.extension with
  | "pdf" => "application/pdf"
  | "doc" => "application/vnd.openxmlformats-officedocument.wordprocessingml.document"
  | "docx" => "application/vnd.openxmlformats-officedocument.wordprocessingml.document"
  | "xls" => "application/vnd.openxmlformats-officedocument.spreadsheetml.sheet"
  | "xlsx" => "application/vnd.openxmlformats-officedocument.spreadsheetml.sheet"
  | "txt" => "text/plain"
  | "csv" => "text/csv"
  | _ => "text/markdown"

/-- Function `searchItemToMentionable`. -/
def searchItemToMentionable : SearchItem → SearchableMentionable
  | SearchItem.file _ _ f _ _ _ => SearchableMentionable.file f
  | SearchItem.folder _ _ fo _ => SearchableMentionable.folder fo
  | SearchItem.vault _ => SearchableMentionable.vault
  | SearchItem.document _ _ f _ _ =>
    SearchableMentionable.document
      { name := f.name
        mimeType := getMimeTypeForFile f
        content := ""
        originalFileName := f.name
        processingStatus := "pending"
        sourceFile := some f.path }

/-- Function `getEmptyQueryResult`: sort all items by descending boost
score at base scores 0.5 and keep the first `limit`. -/
def getEmptyQueryResult (log : ℚ → ℚ) (searchItems : List SearchItem)
    (limit : Nat) : List SearchableMentionable :=
  ((searchItems.mergeSort (descByEmptyScore log)).take limit).map
    searchItemToMentionable

/-- File extensions accepted by the `getFiles` filter of `fuzzySearch`. -/
def fuzzySupportedExtensions : List String :=
  ["md", "pdf", "docx", "doc", "xlsx", "xls", "txt", "csv"]

/-- Extensions mapped to the `document` variant. -/
def documentExtensions : List String := ["pdf", "docx", "doc", "xlsx", "xls"]

/-- Metadata attached to one supported vault file by `fuzzySearch`. -/
def fileSearchItem (app : ObsidianApp) (f : VFile) : SearchItem :=
  let distance :=
    match app.currentFile with
    | some cur => if cur = f then none else app.fileDistance cur f
    | none => none
  let days := (app.now - f.mtime) / (1000 * 60 * 60 * 24)
  if documentExtensions.contains (jsToLower f.extension) then
    SearchItem.document f.path f.name f distance days
  else
    SearchItem.file f.path f.name f
      (app.openFiles.any (fun o => o.path == f.path)) distance days

/-- The `searchItems` array assembled by `fuzzySearch`: supported files,
all folders, then the vault item. -/
def buildSearchItems (app : ObsidianApp) : List SearchItem :=
  (app.files.filter
      (fun f => fuzzySupportedExtensions.contains (jsToLower f.extension))).map
    (fileSearchItem app)
  ++ app.folders.map (fun fo =>
      SearchItem.folder fo.path fo.name fo
        (app.currentFile.bind (fun cur => app.folderDistance cur fo)))
  ++ [SearchItem.vault "vault"]

/-- The options record of the `fuzzysort.go` call. -/
structure FuzzysortOptions where
  keys : List String
  threshold : ℚ
  limit : Nat
  all : Bool
  scoreFn : SearchItem → ℚ → ℚ → ℚ

/-- Options passed by `fuzzySearch` to `fuzzysort.go`. -/
def fuzzysortCallOptions (log : ℚ → ℚ) : FuzzysortOptions :=
  { keys := ["path", "name"]
    threshold := 2/10
    limit := 20
    all := true
    scoreFn := fun item pathScore nameScore =>
      scoreFnWithBoost log item pathScore nameScore }

/-- Function `fuzzySearch`: an empty query goes through
`getEmptyQueryResult` with limit 20; otherwise `fuzzysort.go` runs with
the options above, and the objects of its results are converted to
mentionables. -/
def fuzzySearch
    (go : String → List SearchItem → FuzzysortOptions → List SearchItem)
    (log : ℚ → ℚ) (app : ObsidianApp) (query : String) :
    List SearchableMentionable :=
  let searchItems := buildSearchItems app
  if query = "" then getEmptyQueryResult log searchItems 20
  else (go query searchItems (fuzzysortCallOptions log)).map searchItemToMentionable

/-! ### Indexing engine (spec model)

The RAG engine and vector store (core/rag/ragEngine.ts and the
database/modules/vector repository) are outside this repository slice;
the definitions of this section are modelled from the design document:
the Vector Store contract of section 4.3 (`upsert`, `deleteByChunkIds`),
the Content Tracker of section 4.2 (timestamp pre-filter, content hash as
ground truth, snapshot updated after the pass), and the `buildOrUpdate`
pass of section 4.4 (classify, re-chunk, diff chunk identities, delete
stale records before upserting fresh embeddings, batch the embedding
calls).  `embedCalls` counts embedding batches issued and `writes` counts
record deletions plus record insertions, so the idempotence property of
section 8 can be read off the state. -/

/-- Modelled from the spec: an embedding record (section 3) — chunk
identity, embedding model identifier, vector dimension, vector values and
the owning document path. -/
structure EmbeddingRecord where
  chunkId : String
  modelId : String
  dim : Nat
  vec : List Int
  docPath : String
deriving Repr, DecidableEq

/-- Key of an embedding record: the (chunk identity, model identifier)
pair that must be unique. -/
def recordKey (r : EmbeddingRecord) : String × String := (r.chunkId, r.modelId)

/-- Modelled from the spec: one step of `upsert` — the stale records
holding the same (chunk identity, model identifier) pair are deleted
before the new record is inserted. -/
def upsertRecord (r : EmbeddingRecord) (records : List EmbeddingRecord) :
    List EmbeddingRecord :=
  records.filter (fun x => !(x.chunkId == r.chunkId && x.modelId == r.modelId)) ++ [r]

/-- Modelled from the spec: `upsert(embeddingRecords)` of the Vector
Store, record by record. -/
def upsertRecords (rs : List EmbeddingRecord) (records : List EmbeddingRecord) :
    List EmbeddingRecord :=
  rs.foldl (fun acc r => upsertRecord r acc) records

/-- Modelled from the spec: `deleteByChunkIds(ids)` of the Vector Store —
exact-match deletion on chunk identity. -/
def deleteByChunkIds (ids : List String) (records : List EmbeddingRecord) :
    List EmbeddingRecord :=
  records.filter (fun x => !(ids.contains x.chunkId))

/-- Modelled from the spec: the Content Tracker snapshot of one document —
last-modified timestamp and content hash. -/
structure DocSnapshot where
  mtime : Nat
  contentHash : Nat
deriving Repr, DecidableEq

/-- Modelled from the spec: a source document enumerated by the document
enumeration collaborator. -/
structure SourceDoc where
  path : String
  mtime : Nat
  text : String
deriving Repr, DecidableEq

/-- Modelled from the spec: the collaborators of the Index Manager — the
content hash, the deterministic chunker, the batch embedding collaborator
and the active model identifier. -/
structure RagCollaborators where
  hashText : String → Nat
  chunkText : String → List (Nat × Nat × String)
  embed : List String → List (List Int)
  modelId : String

/-- Modelled from the spec: the chunk identity, derived deterministically
from the document identity, the offsets and the chunk text hash, so that
it changes exactly when the underlying span changes. -/
def chunkIdOf (collab : RagCollaborators) (path : String)
    (c : Nat × Nat × String) : String :=
  path ++ ":" ++ toString c.1 ++ ":" ++ toString c.2.1 ++ ":" ++
    toString (collab.hashText c.2.2)

/-- Modelled from the spec: the Index Manager state — the Content Tracker
snapshot, the persisted embedding records, and counters of embedding
batches issued and record writes performed. -/
structure EngineState where
  snapshot : List (String × DocSnapshot)
  records : List EmbeddingRecord
  embedCalls : Nat
  writes : Nat
deriving Repr

/-- Modelled from the spec: the classification of the Content Tracker. -/
inductive DocChange
  | unchanged
  | created
  | modified
deriving Repr, DecidableEq

/-- Modelled from the spec: two-tier change detection — an unknown path is
`created`; an unchanged timestamp is assumed `unchanged` without
rehashing; a changed timestamp triggers a rehash, and only a hash
mismatch makes the document `modified`. -/
def classifyDoc (collab : RagCollaborators)
    (snapshot : List (String × DocSnapshot)) (d : SourceDoc) : DocChange :=
  match snapshot.lookup d.path with
  | none => DocChange.created
  | some s =>
    if s.mtime = d.mtime then DocChange.unchanged
    else if s.contentHash = collab.hashText d.text then DocChange.unchanged
    else DocChange.modified

/-- Modelled from the spec: processing of one `created`/`modified`
document inside `buildOrUpdate` — re-chunk, diff the old and new chunk
identities, delete the stale records, embed the chunks needing vectors in
one batch, and upsert the fresh records; an `unchanged` document is
skipped entirely. -/
def processDoc (collab : RagCollaborators) (d : SourceDoc)
    (st : EngineState) : EngineState :=
  match classifyDoc collab st.snapshot d with
  | DocChange.unchanged => st
  | _ =>
    let newChunks := collab.chunkText d.text
    let newIds := newChunks.map (chunkIdOf collab d.path)
    let oldIds := (st.records.filter (fun r => r.docPath == d.path)).map
      (fun r => r.chunkId)
    let staleIds := oldIds.filter (fun i => !(newIds.contains i))
    let needed := newChunks.filter
      (fun c => !(oldIds.contains (chunkIdOf collab d.path c)))
    let afterDelete := deleteByChunkIds staleIds st.records
    let vectors := collab.embed (needed.map (fun c => c.2.2))
    let newRecords := (needed.zip vectors).map (fun cv =>
      { chunkId := chunkIdOf collab d.path cv.1
        modelId := collab.modelId
        dim := cv.2.length
        vec := cv.2
        docPath := d.path })
    { st with
      records := upsertRecords newRecords afterDelete
      embedCalls := st.embedCalls + (if needed.isEmpty then 0 else 1)
      writes := st.writes + staleIds.length + newRecords.length }

/-- Modelled from the spec: the snapshot recorded after a pass completes —
path, timestamp and content hash of every enumerated document. -/
def snapshotOf (collab : RagCollaborators) (docs : List SourceDoc) :
    List (String × DocSnapshot) :=
  docs.map (fun d => (d.path, ⟨d.mtime, collab.hashText d.text⟩))

/-- Modelled from the spec: `buildOrUpdate()` — delete the records of
documents that disappeared, process every enumerated document, and record
the new snapshot once the pass is done. -/
def buildOrUpdate (collab : RagCollaborators) (docs : List SourceDoc)
    (st : EngineState) : EngineState :=
  let currentPaths := docs.map (fun d => d.path)
  let removedPaths := (st.snapshot.map (fun s => s.1)).filter
    (fun p => !(currentPaths.contains p))
  let removedCount := (st.records.filter
    (fun r => removedPaths.contains r.docPath)).length
  let st0 := { st with
    records := st.records.filter (fun r => !(removedPaths.contains r.docPath))
    writes := st.writes + removedCount }
  let st1 := docs.foldl (fun s d => processDoc collab d s) st0
  { st1 with snapshot := snapshotOf collab docs }

/-- Modelled from the spec: the engine states reachable from the empty
store through `buildOrUpdate` passes. -/
inductive EngineReachable (collab : RagCollaborators) : EngineState → Prop
  | init : EngineReachable collab ⟨[], [], 0, 0⟩
  | step (docs : List SourceDoc) {st : EngineState} :
      EngineReachable collab st →
      EngineReachable collab (buildOrUpdate collab docs st)

/-! ### Claim-level notions and concrete sample data

`CarriesStableContentIdentityHint` renders the interface sentence of the
design document — `extract(rawBytes) -> (text, stable-content-identity-hint)`
— as a property of a processor result: some function of the components of
the result other than the extracted text that does not change when the
same bytes are re-extracted at a different time, and that distinguishes
results whose extracted text differs.  It is the spec side of a
refinement comparison; the code side is the processor result defined
above.  The remaining definitions are concrete instances used to
evaluate the embedding. -/

/-- A processing result with the extracted text erased: what the result
carries besides the text. -/
def eraseContent (r : DocumentProcessingResult) : DocumentProcessingResult :=
  { r with content := none }

/-- Spec-side reading of the pair `(text, stable-content-identity-hint)`:
the result of processing raw bytes at some time determines, through its
non-text components, a value that is stable across extraction times and
differs whenever the extracted text differs. -/
def CarriesStableContentIdentityHint
    (procFile : List Nat → Nat → DocumentProcessingResult) : Prop :=
  ∃ hint : DocumentProcessingResult → Nat,
    (∀ b t₁ t₂, hint (eraseContent (procFile b t₁)) =
      hint (eraseContent (procFile b t₂))) ∧
    (∀ b₁ b₂ t₁ t₂, (procFile b₁ t₁).content ≠ (procFile b₂ t₂).content →
      hint (eraseContent (procFile b₁ t₁)) ≠ hint (eraseContent (procFile b₂ t₂)))

/-- A mammoth behaviour distinguishing two documents: byte `[0]`
extracts to `a b`, anything else to `c d` — two different texts with
equal word counts. -/
def hintProbeExtract : List Nat → Except String String :=
  fun b => Except.ok (if b = [0] then "a b" else "c d")

/-- Environment around `hintProbeExtract` with the clock as parameter. -/
def hintProbeEnv (t : Nat) : ProcessorEnv :=
  ⟨hintProbeExtract, fun _ => Except.ok [], fun _ => Except.ok "",
   fun _ => Except.error "no pdf", Except.ok 0, none, fun _ => Except.ok "", t⟩

/-- The DOCX processor applied to raw bytes at a given extraction time. -/
def docxProcessAt (b : List Nat) (t : Nat) : DocumentProcessingResult :=
  DOCXProcessor.processFile (hintProbeEnv t) ⟨"f.docx", "application/msword", b⟩

/-- Sample environment for the upload scenario: text files read fine,
DOCX extraction fails. -/
def sampleUploadEnv : ProcessorEnv :=
  ⟨fun _ => Except.error "boom", fun _ => Except.ok [],
   fun _ => Except.ok "hello world", fun _ => Except.error "no pdf",
   Except.ok 0, none, fun _ => Except.ok "", 0⟩

/-- A plain-text upload. -/
def sampleTxtFile : JSFile := ⟨"notes.txt", "text/plain", []⟩

/-- A DOCX upload whose extraction fails under `sampleUploadEnv`. -/
def sampleDocxFile : JSFile := ⟨"b.docx", "application/msword", []⟩

/-- An empty chat input state. -/
def sampleChatState : ChatState := ⟨[], [], none⟩

/-- A vault slice with no files, used to instantiate `fuzzySearch`. -/
def sampleApp : ObsidianApp :=
  ⟨[], [], none, [], 0, fun _ _ => none, fun _ _ => none⟩

/-- Concrete indexing collaborators: length as hash, whole document as
the single chunk, one-dimensional embeddings. -/
def sampleCollab : RagCollaborators :=
  ⟨fun s => s.length, fun s => [(0, s.length, s)],
   fun ts => ts.map (fun t => [(t.length : Int)]), "model-a"⟩

/-- A one-document corpus. -/
def sampleDoc : SourceDoc := ⟨"a.md", 1, "apples"⟩

/-- Key uniqueness invariant of the store: the (chunk identity, model
identifier) pairs of the persisted records are pairwise distinct. -/
def KeyUnique (records : List EmbeddingRecord) : Prop :=
  (records.map recordKey).Nodup

/-! ## Theorems -/

/-- C3: if the dynamic tesseract.js load throws, `initializeTesseract`
leaves the cached module field unset (so a later call attempts the load
again), reports the wrapped failure, and once a load succeeds the module
is cached and every later call returns it without attempting another
load. -/
theorem initializeTesseract_never_caches_failure
    (imp imp₂ : Except String Nat) (e : String) (m : Nat)
    (hfail : imp = Except.error e) :
    (PDFLib.initializeTesseract imp none).cache = none ∧
    (PDFLib.initializeTesseract imp none).result =
      Except.error ("Failed to load Tesseract module: " ++ e) ∧
    (PDFLib.initializeTesseract imp₂
      (PDFLib.initializeTesseract imp none).cache).attemptedLoad = true ∧
    PDFLib.initializeTesseract (Except.ok m) none =
      ⟨Except.ok (), some m, true⟩ ∧
    PDFLib.initializeTesseract imp₂ (some m) = ⟨Except.ok (), some m, false⟩ := by
  subst hfail
  refine ⟨rfl, rfl, ?_, rfl, rfl⟩
  cases imp₂ <;> rfl

/-- Witness for C3 at a concrete failing import. -/
theorem initializeTesseract_never_caches_failure_witness :
    (PDFLib.initializeTesseract (Except.error "no module") none).cache = none ∧
    (PDFLib.initializeTesseract (Except.error "no module") none).result =
      Except.error ("Failed to load Tesseract module: " ++ "no module") ∧
    (PDFLib.initializeTesseract (Except.ok 7)
      (PDFLib.initializeTesseract (Except.error "no module") none).cache).attemptedLoad = true ∧
    PDFLib.initializeTesseract (Except.ok 7) none = ⟨Except.ok (), some 7, true⟩ ∧
    PDFLib.initializeTesseract (Except.ok 7) (some 7) = ⟨Except.ok (), some 7, false⟩ :=
  initializeTesseract_never_caches_failure (Except.error "no module") (Except.ok 7)
    "no module" 7 rfl

/-- C6: each processor class caches one instance — with an empty cache,
`getInstance` constructs the instance and stores it; with a populated
cache it returns the cached instance and leaves the static state exactly
as it was, so the field, once set, is never replaced. -/
theorem getInstance_singleton (st st' : SingletonState) (i : Nat)
    (hcached : st.cached = some i) (hempty : st'.cached = none) :
    PDFProcessor.getInstance st = (i, st) ∧
    DOCXProcessor.getInstance st = (i, st) ∧
    XLSXProcessor.getInstance st = (i, st) ∧
    TextProcessor.getInstance st = (i, st) ∧
    PDFProcessor.getInstance st' = (st'.nextId, ⟨some st'.nextId, st'.nextId + 1⟩) ∧
    DOCXProcessor.getInstance st' = (st'.nextId, ⟨some st'.nextId, st'.nextId + 1⟩) ∧
    XLSXProcessor.getInstance st' = (st'.nextId, ⟨some st'.nextId, st'.nextId + 1⟩) ∧
    TextProcessor.getInstance st' = (st'.nextId, ⟨some st'.nextId, st'.nextId + 1⟩) := by
  cases st with
  | mk c n =>
    cases st' with
    | mk c' n' =>
      simp only [SingletonState.cached] at hcached hempty
      subst hcached
      subst hempty
      exact ⟨rfl, rfl, rfl, rfl, rfl, rfl, rfl, rfl⟩

/-- Witness for C6 at concrete singleton states. -/
theorem getInstance_singleton_witness :
    PDFProcessor.getInstance ⟨some 4, 5⟩ = (4, ⟨some 4, 5⟩) ∧
    DOCXProcessor.getInstance ⟨some 4, 5⟩ = (4, ⟨some 4, 5⟩) ∧
    XLSXProcessor.getInstance ⟨some 4, 5⟩ = (4, ⟨some 4, 5⟩) ∧
    TextProcessor.getInstance ⟨some 4, 5⟩ = (4, ⟨some 4, 5⟩) ∧
    PDFProcessor.getInstance ⟨none, 0⟩ = (0, ⟨some 0, 1⟩) ∧
    DOCXProcessor.getInstance ⟨none, 0⟩ = (0, ⟨some 0, 1⟩) ∧
    XLSXProcessor.getInstance ⟨none, 0⟩ = (0, ⟨some 0, 1⟩) ∧
    TextProcessor.getInstance ⟨none, 0⟩ = (0, ⟨some 0, 1⟩) :=
  getInstance_singleton ⟨some 4, 5⟩ ⟨none, 0⟩ 4 rfl rfl

/-- C9: for a file whose MIME type matches no registered processor,
`processDocument` returns a failure result without throwing, while
`createDocumentMentionable` rejects with the `Unsupported file type`
error. -/
theorem unsupported_type_two_behaviors (env : ProcessorEnv) (file : JSFile)
    (h : file.type ∉ DocumentProcessorManager.getSupportedMimeTypes) :
    DocumentProcessorManager.processDocument env file =
      { success := false
        error := some ("File type " ++ file.type ++ " is not supported") } ∧
    ∀ settings, createDocumentMentionable env settings file =
      Except.error ("Unsupported file type: " ++ file.type) := by
  have hfind : DocumentProcessorManager.getProcessorForFile file = none := by
    apply List.find?_eq_none.mpr
    intro p hp
    simp only [DocumentProcessorManager.getSupportedMimeTypes, List.mem_flatMap] at h
    have hnot : file.type ∉ processorMimeTypes p := fun hc => h ⟨p, hp, hc⟩
    simpa using hnot
  constructor
  · simp [DocumentProcessorManager.processDocument, hfind]
  · intro settings
    simp [createDocumentMentionable, hfind]

/-- Witness for C9 at a PNG upload. -/
theorem unsupported_type_two_behaviors_witness :
    DocumentProcessorManager.processDocument
      ⟨fun _ => Except.ok "", fun _ => Except.ok [], fun _ => Except.ok "",
       fun _ => Except.error "x", Except.ok 0, none, fun _ => Except.ok "", 0⟩
      ⟨"img.png", "image/png", []⟩ =
      { success := false
        error := some ("File type " ++ "image/png" ++ " is not supported") } ∧
    ∀ settings, createDocumentMentionable
      ⟨fun _ => Except.ok "", fun _ => Except.ok [], fun _ => Except.ok "",
       fun _ => Except.error "x", Except.ok 0, none, fun _ => Except.ok "", 0⟩
      settings ⟨"img.png", "image/png", []⟩ =
      Except.error ("Unsupported file type: " ++ "image/png") :=
  unsupported_type_two_behaviors _ _ (by decide)

/-- C7: once Tesseract initialization succeeds, `performOCR` resolves for
every per-page pipeline: a page whose rendering or recognition fails
contributes the placeholder entry, every successfully recognized
non-blank page still contributes its text, and no single-page failure
makes `performOCR` reject. -/
theorem performOCR_single_page_failure_recovered
    (importT : Except String Nat) (cache : Option Nat)
    (recognize : Nat → Except String String) (numPages p : Nat) (e : String)
    (hinit : (PDFLib.initializeTesseract importT cache).result = Except.ok ())
    (hp1 : 1 ≤ p) (hp2 : p ≤ numPages)
    (hfail : recognize p = Except.error e) :
    PDFLib.performOCR importT cache recognize numPages =
      Except.ok (String.intercalate "\n\n" (PDFLib.ocrEntries recognize numPages),
        (PDFLib.initializeTesseract importT cache).cache) ∧
    ("--- Page " ++ toString p ++ " ---\n[OCR failed for this page]") ∈
      PDFLib.ocrEntries recognize numPages ∧
    ∀ q t, 1 ≤ q → q ≤ numPages → recognize q = Except.ok t → jsTrim t ≠ "" →
      ("--- Page " ++ toString q ++ " ---\n" ++ jsTrim t) ∈
        PDFLib.ocrEntries recognize numPages := by
  refine ⟨?_, ?_, ?_⟩
  · simp only [PDFLib.performOCR]
    rw [hinit]
  · refine List.mem_flatMap.mpr ⟨p, ?_, ?_⟩
    · simp only [List.mem_range'_1]
      omega
    · simp [PDFLib.ocrPageEntry, hfail]
  · intro q t hq1 hq2 hok htrim
    refine List.mem_flatMap.mpr ⟨q, ?_, ?_⟩
    · simp only [List.mem_range'_1]
      omega
    · simp [PDFLib.ocrPageEntry, hok, htrim]

/-- Witness for C7: a two-page document whose first page fails OCR. -/
theorem performOCR_single_page_failure_recovered_witness :
    PDFLib.performOCR (Except.ok 0) none
      (fun n => if n = 1 then Except.error "render failed" else Except.ok "page text") 2 =
      Except.ok (String.intercalate "\n\n"
        (PDFLib.ocrEntries
          (fun n => if n = 1 then Except.error "render failed" else Except.ok "page text") 2),
        (PDFLib.initializeTesseract (Except.ok 0) none).cache) ∧
    ("--- Page " ++ toString 1 ++ " ---\n[OCR failed for this page]") ∈
      PDFLib.ocrEntries
        (fun n => if n = 1 then Except.error "render failed" else Except.ok "page text") 2 ∧
    ∀ q t, 1 ≤ q → q ≤ 2 →
      (fun n => if n = 1 then Except.error "render failed" else Except.ok "page text") q =
        Except.ok t → jsTrim t ≠ "" →
      ("--- Page " ++ toString q ++ " ---\n" ++ jsTrim t) ∈
        PDFLib.ocrEntries
          (fun n => if n = 1 then Except.error "render failed" else Except.ok "page text") 2 :=
  performOCR_single_page_failure_recovered (Except.ok 0) none _ 2 1 "render failed"
    rfl (by decide) (by decide) rfl

/-- C8: `extractText` applies OCR exactly when `enableOCR` holds (its
default is true) and the directly extracted text averages fewer than
`TEXT_THRESHOLD_PER_PAGE = 2000` characters per page; without OCR the
direct text is returned unchanged, with OCR the content is the direct
text followed by the OCR text when the direct text is non-blank and the
OCR text alone otherwise, and every returned result carries the page
count of the document. -/
theorem extractText_ocr_policy
    (loadDoc : Except String PDFDocument) (importT : Except String Nat)
    (cache : Option Nat) (recognize : Nat → Except String String)
    (opts : PDFLib.ExtractOptions) (pdf : PDFDocument)
    (hload : loadDoc = Except.ok pdf)
    (hinit : (PDFLib.initializeTesseract importT cache).result = Except.ok ()) :
    ({} : PDFLib.ExtractOptions).enableOCR = true ∧
    PDFLib.TEXT_THRESHOLD_PER_PAGE = 2000 ∧
    (PDFLib.needsOCR opts pdf = true ↔
      (opts.enableOCR = true ∧
        (jsTrim (PDFLib.directText pdf)).length <
          PDFLib.TEXT_THRESHOLD_PER_PAGE * pdf.numPages)) ∧
    (PDFLib.needsOCR opts pdf = false →
      PDFLib.extractText loadDoc importT cache recognize opts =
        Except.ok (PDFLib.directText pdf, pdf.numPages)) ∧
    (PDFLib.needsOCR opts pdf = true → jsTrim (PDFLib.directText pdf) ≠ "" →
      PDFLib.extractText loadDoc importT cache recognize opts =
        Except.ok (PDFLib.directText pdf ++ "\n\n" ++
          String.intercalate "\n\n" (PDFLib.ocrEntries recognize pdf.numPages),
          pdf.numPages)) ∧
    (PDFLib.needsOCR opts pdf = true → jsTrim (PDFLib.directText pdf) = "" →
      PDFLib.extractText loadDoc importT cache recognize opts =
        Except.ok (String.intercalate "\n\n" (PDFLib.ocrEntries recognize pdf.numPages),
          pdf.numPages)) := by
  subst hload
  refine ⟨rfl, rfl, ?_, ?_, ?_, ?_⟩
  · constructor
    · intro h
      simp only [PDFLib.needsOCR, Bool.and_eq_true, decide_eq_true_eq] at h
      exact ⟨h.1.1, h.2⟩
    · intro h
      have hpos : 0 < pdf.numPages := by
        rcases Nat.eq_zero_or_pos pdf.numPages with h0 | h0
        · rw [h0] at h
          omega
        · exact h0
      simp only [PDFLib.needsOCR, Bool.and_eq_true, decide_eq_true_eq]
      exact ⟨⟨h.1, hpos⟩, h.2⟩
  · intro h
    simp only [PDFLib.extractText, h, Bool.false_eq_true, if_false]
  · intro h htrim
    simp only [PDFLib.extractText, h, if_true, PDFLib.performOCR]
    rw [hinit]
    simp [htrim]
  · intro h htrim
    simp only [PDFLib.extractText, h, if_true, PDFLib.performOCR]
    rw [hinit]
    simp [htrim]

/-- Witness for C8: a one-page document with a blank direct text layer. -/
theorem extractText_ocr_policy_witness :
    ({} : PDFLib.ExtractOptions).enableOCR = true ∧
    PDFLib.TEXT_THRESHOLD_PER_PAGE = 2000 ∧
    (PDFLib.needsOCR {} ⟨1, fun _ => ""⟩ = true ↔
      (({} : PDFLib.ExtractOptions).enableOCR = true ∧
        (jsTrim (PDFLib.directText ⟨1, fun _ => ""⟩)).length <
          PDFLib.TEXT_THRESHOLD_PER_PAGE * (1 : Nat))) ∧
    (PDFLib.needsOCR {} ⟨1, fun _ => ""⟩ = false →
      PDFLib.extractText (Except.ok ⟨1, fun _ => ""⟩) (Except.ok 0) none
        (fun _ => Except.ok "scanned words") {} =
        Except.ok (PDFLib.directText ⟨1, fun _ => ""⟩, 1)) ∧
    (PDFLib.needsOCR {} ⟨1, fun _ => ""⟩ = true →
      jsTrim (PDFLib.directText ⟨1, fun _ => ""⟩) ≠ "" →
      PDFLib.extractText (Except.ok ⟨1, fun _ => ""⟩) (Except.ok 0) none
        (fun _ => Except.ok "scanned words") {} =
        Except.ok (PDFLib.directText ⟨1, fun _ => ""⟩ ++ "\n\n" ++
          String.intercalate "\n\n"
            (PDFLib.ocrEntries (fun _ => Except.ok "scanned words") 1), 1)) ∧
    (PDFLib.needsOCR {} ⟨1, fun _ => ""⟩ = true →
      jsTrim (PDFLib.directText ⟨1, fun _ => ""⟩) = "" →
      PDFLib.extractText (Except.ok ⟨1, fun _ => ""⟩) (Except.ok 0) none
        (fun _ => Except.ok "scanned words") {} =
        Except.ok (String.intercalate "\n\n"
          (PDFLib.ocrEntries (fun _ => Except.ok "scanned words") 1), 1)) :=
  extractText_ocr_policy (Except.ok ⟨1, fun _ => ""⟩) (Except.ok 0) none
    (fun _ => Except.ok "scanned words") {} ⟨1, fun _ => ""⟩ rfl rfl

/-- C1: a failing file in an uploaded batch is skipped after its failure
notice is posted, every other file is still processed, and exactly the
successfully processed documents are appended as mentionables — assuming
their keys are not already present, in which case
`handleCreateDocumentMentionables` would drop the duplicates rather than
add them twice. -/
theorem handleUploadDocuments_skip_and_continue
    (env : ProcessorEnv) (key : MentionableDocument → String)
    (docs : List JSFile) (st : ChatState) (f : JSFile) (e : String)
    (hfresh : ∀ m ∈ uploadSuccesses env docs, ∀ ex ∈ st.mentionables, key ex ≠ key m)
    (hf : f ∈ docs)
    (hfail : createDocumentMentionable env none f = Except.error e) :
    (handleUploadDocuments env key docs st).mentionables =
      st.mentionables ++ uploadSuccesses env docs ∧
    ("Failed to process " ++ f.name ++ ": " ++ e) ∈
      (handleUploadDocuments env key docs st).notices ∧
    ∀ d ∈ docs, ∀ m, createDocumentMentionable env none d = Except.ok m →
      m ∈ (handleUploadDocuments env key docs st).mentionables := by
  have hfilter :
      (uploadSuccesses env docs).filter
        (fun m => !(st.mentionables.any (fun ex => key ex == key m))) =
      uploadSuccesses env docs := by
    apply List.filter_eq_self.mpr
    intro m hm
    have hany : st.mentionables.any (fun ex => key ex == key m) = false := by
      simp only [List.any_eq_false]
      intro ex hex
      simpa using hfresh m hm ex hex
    simp [hany]
  have hnotice : ("Failed to process " ++ f.name ++ ": " ++ e) ∈
      uploadFailureNotices env docs :=
    List.mem_filterMap.mpr ⟨f, hf, by rw [hfail]⟩
  have hmen : (handleUploadDocuments env key docs st).mentionables =
      st.mentionables ++ uploadSuccesses env docs := by
    by_cases hempty : (uploadSuccesses env docs).isEmpty
    · have hnil : uploadSuccesses env docs = [] := by
        simpa [List.isEmpty_iff] using hempty
      simp [handleUploadDocuments, hempty, hnil]
      split <;> rfl
    · by_cases hcount : (uploadSuccesses env docs).length < docs.length
      · simp [handleUploadDocuments, hempty, hcount,
          handleCreateDocumentMentionables, hfilter]
      · simp [handleUploadDocuments, hempty, hcount,
          handleCreateDocumentMentionables, hfilter]
  refine ⟨hmen, ?_, ?_⟩
  · by_cases hempty : (uploadSuccesses env docs).isEmpty
    · by_cases hcount : (uploadSuccesses env docs).length < docs.length
      · simp [handleUploadDocuments, hempty, hcount, List.mem_append]
        tauto
      · simp [handleUploadDocuments, hempty, hcount, List.mem_append]
        tauto
    · by_cases hcount : (uploadSuccesses env docs).length < docs.length
      · simp [handleUploadDocuments, handleCreateDocumentMentionables, hempty,
          hcount, hfilter, List.mem_append]
        tauto
      · simp [handleUploadDocuments, handleCreateDocumentMentionables, hempty,
          hcount, hfilter, List.mem_append]
        tauto
  · intro d hd m hok
    rw [hmen]
    apply List.mem_append_right
    exact List.mem_filterMap.mpr ⟨d, hd, by rw [hok]; rfl⟩

/-- Witness for C1: two uploaded files, the DOCX one failing, the text
one processed and added. -/
theorem handleUploadDocuments_skip_and_continue_witness :
    (handleUploadDocuments sampleUploadEnv (fun m => m.name)
        [sampleTxtFile, sampleDocxFile] sampleChatState).mentionables =
      sampleChatState.mentionables ++
        uploadSuccesses sampleUploadEnv [sampleTxtFile, sampleDocxFile] ∧
    ("Failed to process " ++ sampleDocxFile.name ++ ": " ++
        "Failed to extract text from DOCX: boom") ∈
      (handleUploadDocuments sampleUploadEnv (fun m => m.name)
        [sampleTxtFile, sampleDocxFile] sampleChatState).notices ∧
    ∀ d ∈ [sampleTxtFile, sampleDocxFile], ∀ m,
      createDocumentMentionable sampleUploadEnv none d = Except.ok m →
      m ∈ (handleUploadDocuments sampleUploadEnv (fun m => m.name)
        [sampleTxtFile, sampleDocxFile] sampleChatState).mentionables :=
  handleUploadDocuments_skip_and_continue sampleUploadEnv (fun m => m.name)
    [sampleTxtFile, sampleDocxFile] sampleChatState sampleDocxFile
    "Failed to extract text from DOCX: boom"
    (by
      intro m _ ex hex
      simp [sampleChatState] at hex)
    (by decide)
    (by rfl)

/-- C2 counterexample: under a text-extraction collaborator producing the
texts `a b` and `c d` for two different inputs, the DOCX processor result
carries no stable content-identity hint — the two results differ in their
extracted text yet agree on every other component (success flag, word
count 2, extraction timestamp), so no stable function of the non-text
components can distinguish them. -/
theorem docx_result_carries_no_stable_hint :
    ¬ CarriesStableContentIdentityHint docxProcessAt := by
  rintro ⟨hint, -, hdist⟩
  have hne : (docxProcessAt [0] 0).content ≠ (docxProcessAt [1] 0).content := by
    decide
  have hview : eraseContent (docxProcessAt [0] 0) =
      eraseContent (docxProcessAt [1] 0) := by
    decide
  exact hdist [0] [1] 0 0 hne (by rw [hview])

/-- C2 amended: every supported document type's extractor returns the
extracted plain text (the PDF extractor also the page count), and that
text is the only content-identifying component of the result — the
remaining components are a success flag, counts, and a wall-clock
extraction timestamp, which do not form a stable content-identity
hint. -/
theorem extractors_return_plain_text_only
    (env : ProcessorEnv) (file : JSFile) (txt : String) :
    (env.mammothExtract file.bytes = Except.ok txt →
      DOCXProcessor.processFile env file =
        { success := true
          content := some txt
          metadata := some { wordCount := some (jsWordCount txt), extractedAt := env.now } }) ∧
    (∀ sheets, env.readWorkbook file.bytes = Except.ok sheets →
      XLSXProcessor.processFile env file =
        { success := true
          content := some (String.intercalate "\n\n" (XLSXLib.sheetEntries sheets))
          metadata := some
            { wordCount := some (jsWordCount
                (String.intercalate "\n\n" (XLSXLib.sheetEntries sheets)))
              extractedAt := env.now } }) ∧
    (env.readAsText file.bytes = Except.ok txt →
      TextProcessor.processFile env file =
        { success := true
          content := some txt
          metadata := some { wordCount := some (jsWordCount txt), extractedAt := env.now } }) ∧
    (∀ c n (settings : Option SmartComposerSettings),
      PDFLib.extractText (env.loadPdf file.bytes) env.importTesseract
        env.tesseractCache env.recognize
        ⟨(settings.map (fun s => s.ocrOptions.enabled)).getD true,
         (settings.map (fun s => s.ocrOptions.language)).getD "eng"⟩ =
        Except.ok (c, n) →
      PDFProcessor.processFile env file settings =
        { success := true
          content := some c
          metadata := some { pageCount := some n, extractedAt := env.now } }) ∧
    ¬ CarriesStableContentIdentityHint docxProcessAt := by
  refine ⟨?_, ?_, ?_, ?_, ?_⟩
  · intro h
    simp [DOCXProcessor.processFile, DOCXLib.extractText, h]
  · intro sheets h
    simp [XLSXProcessor.processFile, XLSXLib.extractText, h]
  · intro h
    simp [TextProcessor.processFile, h]
  · intro c n settings h
    simp [PDFProcessor.processFile, h]
  · rintro ⟨hint, -, hdist⟩
    have hne : (docxProcessAt [0] 0).content ≠ (docxProcessAt [1] 0).content := by
      decide
    have hview : eraseContent (docxProcessAt [0] 0) =
        eraseContent (docxProcessAt [1] 0) := by
      decide
    exact hdist [0] [1] 0 0 hne (by rw [hview])

/-- Witness for the amended C2 at the probe collaborators. -/
theorem extractors_return_plain_text_only_witness :
    DOCXProcessor.processFile (hintProbeEnv 3) ⟨"f.docx", "application/msword", [1]⟩ =
      { success := true
        content := some "c d"
        metadata := some { wordCount := some (jsWordCount "c d"), extractedAt := 3 } } ∧
    TextProcessor.processFile sampleUploadEnv sampleTxtFile =
      { success := true
        content := some "hello world"
        metadata := some { wordCount := some (jsWordCount "hello world"), extractedAt := 0 } } :=
  ⟨(extractors_return_plain_text_only (hintProbeEnv 3)
      ⟨"f.docx", "application/msword", [1]⟩ "c d").1 rfl,
   (extractors_return_plain_text_only sampleUploadEnv sampleTxtFile
      "hello world").2.2.1 rfl⟩

/-- C10: `fuzzySearch` returns at most 20 results for every vault state
and query (given that the fuzzysort library honors its `limit` option):
the options record passed to `fuzzysort.go` carries `limit := 20`, and on
an empty query the result is the first 20 search items of a reordering of
all items that is sorted by descending boost score at base path and name
scores of 0.5. -/
theorem fuzzySearch_result_cap
    (go : String → List SearchItem → FuzzysortOptions → List SearchItem)
    (log : ℚ → ℚ) (app : ObsidianApp) (query : String)
    (hgo : ∀ q items opts, (go q items opts).length ≤ opts.limit) :
    (fuzzySearch go log app query).length ≤ 20 ∧
    (fuzzysortCallOptions log).limit = 20 ∧
    ∃ sorted : List SearchItem,
      sorted.Perm (buildSearchItems app) ∧
      sorted.Pairwise (fun a b => emptyQueryScore log b ≤ emptyQueryScore log a) ∧
      fuzzySearch go log app "" =
        (sorted.take 20).map searchItemToMentionable := by
  refine ⟨?_, rfl, ?_⟩
  · by_cases hq : query = ""
    · subst hq
      simp [fuzzySearch, getEmptyQueryResult, List.length_map, List.length_take]
    · have hlen := hgo query (buildSearchItems app) (fuzzysortCallOptions log)
      simpa [fuzzySearch, hq, List.length_map] using hlen
  · refine ⟨(buildSearchItems app).mergeSort (descByEmptyScore log),
      List.mergeSort_perm _ _, ?_, by simp [fuzzySearch, getEmptyQueryResult]⟩
    have hp := @List.sorted_mergeSort SearchItem (descByEmptyScore log)
      (fun a b c hab hbc => by
        simp only [descByEmptyScore, decide_eq_true_eq] at hab hbc ⊢
        exact le_trans hbc hab)
      (fun a b => by
        simp only [descByEmptyScore, Bool.or_eq_true, decide_eq_true_eq]
        exact le_total (emptyQueryScore log b) (emptyQueryScore log a))
      (buildSearchItems app)
    exact hp.imp (fun {a b} h => by simpa [descByEmptyScore] using h)

/-- Witness for C10 at a concrete vault and go function. -/
theorem fuzzySearch_result_cap_witness :
    (fuzzySearch (fun _ _ _ => []) (fun x => x) sampleApp "notes").length ≤ 20 ∧
    (fuzzysortCallOptions (fun x => x)).limit = 20 ∧
    ∃ sorted : List SearchItem,
      sorted.Perm (buildSearchItems sampleApp) ∧
      sorted.Pairwise (fun a b =>
        emptyQueryScore (fun x => x) b ≤ emptyQueryScore (fun x => x) a) ∧
      fuzzySearch (fun _ _ _ => []) (fun x => x) sampleApp "" =
        (sorted.take 20).map searchItemToMentionable :=
  fuzzySearch_result_cap (fun _ _ _ => []) (fun x => x) sampleApp "notes"
    (fun _ _ _ => by simp)

/-- Snapshot lookup after a pass: with duplicate-free paths, every
enumerated document finds its own snapshot entry. -/
theorem lookup_snapshotOf (collab : RagCollaborators) (docs : List SourceDoc)
    (d : SourceDoc) (hd : d ∈ docs)
    (hnodup : (docs.map SourceDoc.path).Nodup) :
    (snapshotOf collab docs).lookup d.path =
      some ⟨d.mtime, collab.hashText d.text⟩ := by
  induction docs with
  | nil => cases hd
  | cons a as ih =>
    have hnd : a.path ∉ as.map SourceDoc.path ∧ (as.map SourceDoc.path).Nodup := by
      simpa using List.nodup_cons.mp hnodup
    rcases List.mem_cons.mp hd with rfl | hmem
    · simp [snapshotOf, List.lookup]
    · have hne : a.path ≠ d.path := by
        intro h
        exact hnd.1 (h ▸ List.mem_map_of_mem SourceDoc.path hmem)
      have hb : (d.path == a.path) = false := beq_eq_false_iff_ne.mpr (Ne.symm hne)
      simpa [snapshotOf, List.lookup, hb] using ih hmem hnd.2

/-- Against its own freshly recorded snapshot, every document classifies
as unchanged via the timestamp pre-filter. -/
theorem classifyDoc_snapshotOf_unchanged (collab : RagCollaborators)
    (docs : List SourceDoc) (d : SourceDoc) (hd : d ∈ docs)
    (hnodup : (docs.map SourceDoc.path).Nodup) :
    classifyDoc collab (snapshotOf collab docs) d = DocChange.unchanged := by
  simp [classifyDoc, lookup_snapshotOf collab docs d hd hnodup]

/-- An unchanged document is skipped by `processDoc`. -/
theorem processDoc_unchanged (collab : RagCollaborators) (d : SourceDoc)
    (st : EngineState)
    (h : classifyDoc collab st.snapshot d = DocChange.unchanged) :
    processDoc collab d st = st := by
  simp [processDoc, h]

/-- Folding `processDoc` over documents that all classify as unchanged
leaves the state untouched. -/
theorem foldl_processDoc_unchanged (collab : RagCollaborators)
    (l : List SourceDoc) (st : EngineState)
    (h : ∀ d ∈ l, classifyDoc collab st.snapshot d = DocChange.unchanged) :
    l.foldl (fun s d => processDoc collab d s) st = st := by
  induction l with
  | nil => rfl
  | cons a as ih =>
    have ha := processDoc_unchanged collab a st (h a (List.mem_cons_self a as))
    simp only [List.foldl_cons, ha]
    exact ih (fun d hd => h d (List.mem_cons_of_mem a hd))

/-- A pass over an unchanged corpus is a no-op apart from re-recording
the snapshot: with the snapshot already matching the corpus, nothing is
deleted, nothing is embedded and nothing is written. -/
theorem buildOrUpdate_fixed (collab : RagCollaborators) (docs : List SourceDoc)
    (s : EngineState) (hsnap : s.snapshot = snapshotOf collab docs)
    (hnodup : (docs.map SourceDoc.path).Nodup) :
    buildOrUpdate collab docs s = { s with snapshot := snapshotOf collab docs } := by
  have hpaths : s.snapshot.map (fun x => x.1) = docs.map (fun d => d.path) := by
    rw [hsnap]
    simp [snapshotOf]
  have hremoved : (s.snapshot.map (fun x => x.1)).filter
      (fun p => !((docs.map (fun d => d.path)).contains p)) = [] := by
    rw [hpaths]
    apply List.filter_eq_nil_iff.mpr
    intro p hp
    simp [hp]
  have hcls : ∀ d ∈ docs, classifyDoc collab s.snapshot d = DocChange.unchanged := by
    intro d hd
    rw [hsnap]
    exact classifyDoc_snapshotOf_unchanged collab docs d hd hnodup
  simp only [buildOrUpdate, hremoved]
  simp only [List.elem_nil, List.contains_nil, Bool.not_false, List.filter_true,
    List.filter_false, List.length_nil, Nat.add_zero]
  rw [foldl_processDoc_unchanged collab docs s hcls]

/-- C4: calling `buildOrUpdate` twice on an unchanged corpus (paths
enumerated without duplicates) issues zero embedding batches and zero
record writes during the second call and leaves the persisted
embedding-record set identical to what the first call produced. -/
theorem buildOrUpdate_idempotent (collab : RagCollaborators)
    (docs : List SourceDoc) (st : EngineState)
    (hnodup : (docs.map SourceDoc.path).Nodup) :
    (buildOrUpdate collab docs (buildOrUpdate collab docs st)).records =
      (buildOrUpdate collab docs st).records ∧
    (buildOrUpdate collab docs (buildOrUpdate collab docs st)).embedCalls =
      (buildOrUpdate collab docs st).embedCalls ∧
    (buildOrUpdate collab docs (buildOrUpdate collab docs st)).writes =
      (buildOrUpdate collab docs st).writes := by
  have hsnap : (buildOrUpdate collab docs st).snapshot = snapshotOf collab docs := rfl
  rw [buildOrUpdate_fixed collab docs (buildOrUpdate collab docs st) hsnap hnodup]
  exact ⟨rfl, rfl, rfl⟩

/-- Witness for C4 on a one-document corpus. -/
theorem buildOrUpdate_idempotent_witness :
    (buildOrUpdate sampleCollab [sampleDoc]
        (buildOrUpdate sampleCollab [sampleDoc] ⟨[], [], 0, 0⟩)).records =
      (buildOrUpdate sampleCollab [sampleDoc] ⟨[], [], 0, 0⟩).records ∧
    (buildOrUpdate sampleCollab [sampleDoc]
        (buildOrUpdate sampleCollab [sampleDoc] ⟨[], [], 0, 0⟩)).embedCalls =
      (buildOrUpdate sampleCollab [sampleDoc] ⟨[], [], 0, 0⟩).embedCalls ∧
    (buildOrUpdate sampleCollab [sampleDoc]
        (buildOrUpdate sampleCollab [sampleDoc] ⟨[], [], 0, 0⟩)).writes =
      (buildOrUpdate sampleCollab [sampleDoc] ⟨[], [], 0, 0⟩).writes :=
  buildOrUpdate_idempotent sampleCollab [sampleDoc] ⟨[], [], 0, 0⟩ (by decide)

/-- Filtering preserves key uniqueness. -/
theorem keyUnique_filter (p : EmbeddingRecord → Bool) (l : List EmbeddingRecord)
    (h : KeyUnique l) : KeyUnique (l.filter p) :=
  ((List.filter_sublist l).map recordKey).nodup h

/-- Upserting one record preserves key uniqueness: the records with the
same key are removed before the new one is appended. -/
theorem keyUnique_upsertRecord (r : EmbeddingRecord) (l : List EmbeddingRecord)
    (h : KeyUnique l) : KeyUnique (upsertRecord r l) := by
  unfold KeyUnique upsertRecord
  rw [List.map_append]
  apply List.Nodup.append
  · exact keyUnique_filter _ l h
  · simp
  · intro x hx hxr
    simp only [List.map_cons, List.map_nil, List.mem_singleton] at hxr
    subst hxr
    obtain ⟨a, ha, hak⟩ := List.mem_map.mp hx
    have hmem := (List.mem_filter.mp ha).2
    simp only [Bool.not_eq_eq_eq_not, Bool.not_true, Bool.and_eq_false_iff,
      beq_eq_false_iff_ne] at hmem
    have h1 := congrArg Prod.fst hak
    have h2 := congrArg Prod.snd hak
    simp only [recordKey] at h1 h2
    rcases hmem with hmem | hmem
    · exact hmem h1
    · exact hmem h2

/-- Upserting a batch preserves key uniqueness. -/
theorem keyUnique_upsertRecords (rs : List EmbeddingRecord)
    (l : List EmbeddingRecord) (h : KeyUnique l) :
    KeyUnique (upsertRecords rs l) := by
  induction rs generalizing l with
  | nil => exact h
  | cons r rest ih =>
    simp only [upsertRecords, List.foldl_cons]
    exact ih _ (keyUnique_upsertRecord r l h)

/-- Deletion by chunk identities preserves key uniqueness. -/
theorem keyUnique_deleteByChunkIds (ids : List String)
    (l : List EmbeddingRecord) (h : KeyUnique l) :
    KeyUnique (deleteByChunkIds ids l) :=
  keyUnique_filter _ l h

/-- Processing one document preserves key uniqueness. -/
theorem keyUnique_processDoc (collab : RagCollaborators) (d : SourceDoc)
    (st : EngineState) (h : KeyUnique st.records) :
    KeyUnique (processDoc collab d st).records := by
  cases hcase : classifyDoc collab st.snapshot d with
  | unchanged => simpa [processDoc, hcase] using h
  | created =>
    simp only [processDoc, hcase]
    exact keyUnique_upsertRecords _ _ (keyUnique_deleteByChunkIds _ _ h)
  | modified =>
    simp only [processDoc, hcase]
    exact keyUnique_upsertRecords _ _ (keyUnique_deleteByChunkIds _ _ h)

/-- The document fold of a pass preserves key uniqueness. -/
theorem keyUnique_foldl (collab : RagCollaborators) (l : List SourceDoc)
    (st : EngineState) (h : KeyUnique st.records) :
    KeyUnique ((l.foldl (fun s d => processDoc collab d s) st).records) := by
  induction l generalizing st with
  | nil => exact h
  | cons a as ih =>
    simp only [List.foldl_cons]
    exact ih _ (keyUnique_processDoc collab a st h)

/-- A whole `buildOrUpdate` pass preserves key uniqueness. -/
theorem keyUnique_buildOrUpdate (collab : RagCollaborators)
    (docs : List SourceDoc) (st : EngineState) (h : KeyUnique st.records) :
    KeyUnique (buildOrUpdate collab docs st).records := by
  simp only [buildOrUpdate]
  exact keyUnique_foldl collab docs _ (keyUnique_filter _ _ h)

/-- At most one record per key follows from key uniqueness. -/
theorem countP_key_le_one (l : List EmbeddingRecord) (h : KeyUnique l)
    (c mdl : String) :
    l.countP (fun r => r.chunkId == c && r.modelId == mdl) ≤ 1 := by
  induction l with
  | nil => simp
  | cons a as ih =>
    rw [KeyUnique, List.map_cons] at h
    have hnd := List.nodup_cons.mp h
    by_cases hp : (a.chunkId == c && a.modelId == mdl) = true
    · have hzero : as.countP (fun r => r.chunkId == c && r.modelId == mdl) = 0 := by
        apply List.countP_eq_zero.mpr
        intro x hx hpx
        simp only [Bool.and_eq_true, beq_iff_eq] at hp hpx
        have hkey : recordKey x = recordKey a := by
          simp [recordKey, hp.1, hp.2, hpx.1, hpx.2]
        exact hnd.1 (hkey ▸ List.mem_map_of_mem recordKey hx)
      simp [List.countP_cons, hp, hzero]
    · simp only [List.countP_cons, hp, if_false, Nat.add_zero]
      exact ih hnd.2

/-- The record inserted by `upsertRecord` is the single record with its
key: everything with the same key was deleted first. -/
theorem upsertRecord_exactly_one (r : EmbeddingRecord)
    (recs : List EmbeddingRecord) :
    (upsertRecord r recs).countP
      (fun x => x.chunkId == r.chunkId && x.modelId == r.modelId) = 1 ∧
    ∀ x ∈ upsertRecord r recs, recordKey x = recordKey r → x = r := by
  constructor
  · unfold upsertRecord
    rw [List.countP_append]
    have hzero : (recs.filter
        (fun x => !(x.chunkId == r.chunkId && x.modelId == r.modelId))).countP
        (fun x => x.chunkId == r.chunkId && x.modelId == r.modelId) = 0 := by
      apply List.countP_eq_zero.mpr
      intro x hx hpx
      have := (List.mem_filter.mp hx).2
      rw [hpx] at this
      simp at this
    rw [hzero]
    simp
  · intro x hx hkey
    rcases List.mem_append.mp hx with hx | hx
    · exfalso
      have hpred := (List.mem_filter.mp hx).2
      simp only [Bool.not_eq_eq_eq_not, Bool.not_true, Bool.and_eq_false_iff,
        beq_eq_false_iff_ne] at hpred
      have h1 := congrArg Prod.fst hkey
      have h2 := congrArg Prod.snd hkey
      simp only [recordKey] at h1 h2
      rcases hpred with hpred | hpred
      · exact hpred h1
      · exact hpred h2
    · simpa using hx

/-- C5: in every reachable engine state the persisted records have
pairwise distinct (chunk identity, model identifier) keys — at most one
record per pair — and an upsert deletes the stale records of its key
before inserting, so the inserted record is the only one under its key
and duplicate vectors never accumulate. -/
theorem reachable_store_key_invariant (collab : RagCollaborators)
    (st : EngineState) (h : EngineReachable collab st) :
    KeyUnique st.records ∧
    (∀ c mdl : String, st.records.countP
        (fun r => r.chunkId == c && r.modelId == mdl) ≤ 1) ∧
    ∀ (r : EmbeddingRecord) (recs : List EmbeddingRecord),
      (upsertRecord r recs).countP
        (fun x => x.chunkId == r.chunkId && x.modelId == r.modelId) = 1 ∧
      ∀ x ∈ upsertRecord r recs, recordKey x = recordKey r → x = r := by
  have hku : KeyUnique st.records := by
    induction h with
    | init => simp [KeyUnique]
    | step docs hst ih => exact keyUnique_buildOrUpdate _ _ _ ih
  exact ⟨hku, fun c mdl => countP_key_le_one _ hku c mdl,
    fun r recs => upsertRecord_exactly_one r recs⟩

/-- Witness for C5 at a state reached by one indexing pass. -/
theorem reachable_store_key_invariant_witness :
    KeyUnique (buildOrUpdate sampleCollab [sampleDoc] ⟨[], [], 0, 0⟩).records ∧
    (∀ c mdl : String,
      (buildOrUpdate sampleCollab [sampleDoc] ⟨[], [], 0, 0⟩).records.countP
        (fun r => r.chunkId == c && r.modelId == mdl) ≤ 1) ∧
    ∀ (r : EmbeddingRecord) (recs : List EmbeddingRecord),
      (upsertRecord r recs).countP
        (fun x => x.chunkId == r.chunkId && x.modelId == r.modelId) = 1 ∧
      ∀ x ∈ upsertRecord r recs, recordKey x = recordKey r → x = r :=
  reachable_store_key_invariant sampleCollab _
    (EngineReachable.step [sampleDoc] EngineReachable.init)
